import Mathlib

/-!
Shallow embedding of the BSON codec crate (the `src/` sources: `raw/bson_ref.rs`,
`raw/array.rs`, `de/serde.rs`, `de.rs`, `binary.rs`) and proofs about its
specification.  Machine integers are modelled as `Nat`/`Int` with explicit
wrapping where the source performs casts; byte buffers are `List Nat` with each
byte below 256; Rust strings appearing in the raw wire layer are `List Char`
(Unicode scalar values) so that both character-level operations (`chars()`,
sorting) and byte-level operations (UTF-8 encoding, `len()`) can be expressed.
-/

namespace BsonRust

/-! ## Byte-level helpers (little-endian scalar codec) -/

/-- The four little-endian base-256 digits of `n` (the layout of a 32-bit
little-endian value on the wire). -/
def natLe4 (n : Nat) : List Nat :=
  [n % 256, n / 256 % 256, n / 65536 % 256, n / 16777216 % 256]

/-- The eight little-endian base-256 digits of `n` (64-bit little-endian). -/
def natLe8 (n : Nat) : List Nat :=
  [n % 256, n / 256 % 256, n / 65536 % 256, n / 16777216 % 256,
   n / 4294967296 % 256, n / 1099511627776 % 256,
   n / 281474976710656 % 256, n / 72057594037927936 % 256]

/-- `i32::to_le_bytes`: the four little-endian bytes of the two's-complement
representation of `i`. -/
def i32le (i : Int) : List Nat := natLe4 (i % 4294967296).toNat

/-- `i64::to_le_bytes`: the eight little-endian bytes of the two's-complement
representation of `i`. -/
def i64le (i : Int) : List Nat := natLe8 (i % 18446744073709551616).toNat

/-- The value of a `usize as i32` cast (two's-complement truncation). -/
def usizeAsI32 (n : Nat) : Int :=
  let m := n % 4294967296
  if m < 2147483648 then (m : Int) else (m : Int) - 4294967296

/-- Reinterpret an unsigned 32-bit value as a signed one. -/
def asI32 (n : Nat) : Int :=
  if n < 2147483648 then (n : Int) else (n : Int) - 4294967296

/-- Read a 32-bit little-endian unsigned value off the front of a byte list. -/
def readU32le : List Nat → Option (Nat × List Nat)
  | b0 :: b1 :: b2 :: b3 :: rest =>
      some (b0 + 256 * b1 + 65536 * b2 + 16777216 * b3, rest)
  | _ => none

/-! ## UTF-8 encoding of Rust strings (`List Char`) -/

/-- The UTF-8 bytes of one Unicode scalar value. -/
def charUtf8 (c : Char) : List Nat :=
  let n := c.toNat
  if n < 128 then [n]
  else if n < 2048 then [192 + n / 64, 128 + n % 64]
  else if n < 65536 then [224 + n / 4096, 128 + n / 64 % 64, 128 + n % 64]
  else [240 + n / 262144, 128 + n / 4096 % 64, 128 + n / 64 % 64, 128 + n % 64]

/-- The UTF-8 byte sequence of a Rust string; `s.len()` in Rust is the length
of this list. -/
def utf8Bytes (s : List Char) : List Nat := (s.map charUtf8).flatten

/-- Rust `str::len` — the number of UTF-8 bytes. -/
def rustStrLen (s : List Char) : Nat := (utf8Bytes s).length

/-! ## Binary subtypes (`spec::BinarySubtype`)

Modelled from the spec: the `BinarySubtype` enumeration itself lives in
`spec.rs`, which is not under `src/`; §6 of the spec fixes the reserved byte
values Generic=0x00, Function=0x01, BinaryOld=0x02, UUIDOld=0x03, UUID=0x04,
MD5=0x05, Encrypted=0x06, Column=0x07, with values ≥ 0x80 user-defined. -/

inductive BinarySubtype : Type
  | generic
  | function
  | binaryOld
  | uuidOld
  | uuid
  | md5
  | encrypted
  | column
  | userDefined (b : Nat)
  | reserved (b : Nat)
deriving DecidableEq, Repr

/-- `u8::from(subtype)` — the wire byte of a subtype. -/
def BinarySubtype.toByte : BinarySubtype → Nat
  | .generic => 0
  | .function => 1
  | .binaryOld => 2
  | .uuidOld => 3
  | .uuid => 4
  | .md5 => 5
  | .encrypted => 6
  | .column => 7
  | .userDefined b => b
  | .reserved b => b

/-- `BinarySubtype::from(byte)` — decoding a subtype byte. -/
def BinarySubtype.fromByte (b : Nat) : BinarySubtype :=
  if b = 0 then .generic
  else if b = 1 then .function
  else if b = 2 then .binaryOld
  else if b = 3 then .uuidOld
  else if b = 4 then .uuid
  else if b = 5 then .md5
  else if b = 6 then .encrypted
  else if b = 7 then .column
  else if 128 ≤ b then .userDefined b
  else .reserved b

/-- A subtype value is well formed when its byte is in range and the
catch-all constructors do not overlap the named ones. -/
def BinarySubtype.WF : BinarySubtype → Prop
  | .userDefined b => 128 ≤ b ∧ b < 256
  | .reserved b => 8 ≤ b ∧ b < 128
  | _ => True

instance : DecidablePred BinarySubtype.WF := by
  intro st
  cases st <;> simp [BinarySubtype.WF] <;> infer_instance

/-! ## The borrowed tagged value (`raw/bson_ref.rs`) -/

/-- `Timestamp`: two `u32` fields. -/
structure Timestamp where
  time : Nat
  increment : Nat
deriving DecidableEq, Repr

/-- `oid::ObjectId`: a fixed 12-byte value. -/
structure ObjectId where
  bytes : List Nat
deriving DecidableEq, Repr

/-- `RawBinaryRef`: a binary subtype plus borrowed payload bytes. -/
structure RawBinaryRef where
  subtype : BinarySubtype
  bytes : List Nat
deriving DecidableEq, Repr

/-- `RawRegexRef`: borrowed pattern and options C-strings. -/
structure RawRegexRef where
  pattern : List Char
  options : List Char
deriving DecidableEq, Repr

/-- `RawJavaScriptCodeWithScopeRef`: borrowed code string and scope document
bytes.  Note that the structure stores no length field, so any declared
length must be recomputed from the components. -/
structure RawJavaScriptCodeWithScopeRef where
  code : List Char
  scope : List Nat
deriving DecidableEq, Repr

/-- `RawDbPointerRef`: borrowed namespace string plus an `ObjectId`. -/
structure RawDbPointerRef where
  ns : List Char
  id : ObjectId
deriving DecidableEq, Repr

/-- `RawBsonRef`: the borrowed tagged value over all BSON element kinds.
Doubles carry their 64-bit IEEE-754 bit pattern; nested documents and
arrays are raw byte slices (`RawDocument`/`RawArray` wrap `[u8]`). -/
inductive RawBsonRef : Type
  | double (bits : Nat)
  | string (s : List Char)
  | array (bytes : List Nat)
  | document (bytes : List Nat)
  | boolean (b : Bool)
  | null
  | regularExpression (re : RawRegexRef)
  | javaScriptCode (s : List Char)
  | javaScriptCodeWithScope (c : RawJavaScriptCodeWithScopeRef)
  | int32 (i : Int)
  | int64 (i : Int)
  | timestamp (t : Timestamp)
  | binary (b : RawBinaryRef)
  | objectId (o : ObjectId)
  | dateTime (millis : Int)
  | symbol (s : List Char)
  | decimal128 (bytes : List Nat)
  | undefined
  | maxKey
  | minKey
  | dbPointer (d : RawDbPointerRef)
deriving DecidableEq, Repr

/-- `RawBinaryRef::len`: the declared wire length; the legacy `BinaryOld`
subtype adds 4 for its embedded internal length field. -/
def RawBinaryRef.len (b : RawBinaryRef) : Int :=
  match b.subtype with
  | .binaryOld => usizeAsI32 b.bytes.length + 4
  | _ => usizeAsI32 b.bytes.length

/-- `RawJavaScriptCodeWithScopeRef::len`: the declared composite length,
recomputed from the components: own length field (4), code length field (4),
code bytes, nul terminator (1), embedded scope document bytes. -/
def RawJavaScriptCodeWithScopeRef.len (c : RawJavaScriptCodeWithScopeRef) : Int :=
  4 + 4 + usizeAsI32 (rustStrLen c.code) + 1 + usizeAsI32 c.scope.length

/-- Modelled from the spec: `write_string` lives in `raw/mod.rs`, which is not
under `src/`.  §4.1/§6: a length-prefixed string is a 4-byte little-endian
length (counting the trailing nul) followed by the UTF-8 bytes and a nul. -/
def write_string (dest : List Nat) (s : List Char) : List Nat :=
  dest ++ i32le (usizeAsI32 (rustStrLen s + 1)) ++ utf8Bytes s ++ [0]

/-- Modelled from the spec: `CStr::append_to` (in `raw/mod.rs`, not under
`src/`); §4.1/§6: a C-string is the UTF-8 bytes followed by a nul. -/
def cstrAppendTo (dest : List Nat) (s : List Char) : List Nat :=
  dest ++ utf8Bytes s ++ [0]

/-- `RawBsonRef::append_to`: the encoder — each variant appends its exact
wire byte layout to `dest`. -/
def RawBsonRef.appendTo (v : RawBsonRef) (dest : List Nat) : List Nat :=
  match v with
  | .int32 val => dest ++ i32le val
  | .int64 val => dest ++ i64le val
  | .double bits => dest ++ natLe8 (bits % 18446744073709551616)
  | .binary b =>
      let len := b.len
      let dest := dest ++ i32le len
      let dest := dest ++ [b.subtype.toByte]
      let dest := if b.subtype = .binaryOld then dest ++ i32le (len - 4) else dest
      dest ++ b.bytes
  | .string s => write_string dest s
  | .array bytes => dest ++ bytes
  | .document bytes => dest ++ bytes
  | .boolean b => dest ++ [if b then 1 else 0]
  | .regularExpression re => cstrAppendTo (cstrAppendTo dest re.pattern) re.options
  | .javaScriptCode js => write_string dest js
  | .javaScriptCodeWithScope c =>
      let len := c.len
      write_string (dest ++ i32le len) c.code ++ c.scope
  | .timestamp ts => dest ++ natLe4 (ts.increment % 4294967296) ++ natLe4 (ts.time % 4294967296)
  | .objectId o => dest ++ o.bytes
  | .dateTime millis => dest ++ i64le millis
  | .symbol s => write_string dest s
  | .decimal128 d => dest ++ d
  | .dbPointer dbp => write_string dest dbp.ns ++ dbp.id.bytes
  | .null => dest
  | .undefined => dest
  | .minKey => dest
  | .maxKey => dest

/-- Modelled from the spec: the binary element decoder lives in the raw
iteration engine (`raw/iter.rs`), which is not under `src/`.  §6: the payload
is `int32 length + uint8 subtype + bytes`, with a legacy extra `int32` length
(equal to the declared length minus 4) right after the subtype byte iff the
subtype is BinaryOld; the payload bytes must fill the element exactly. -/
def decodeBinary (bytes : List Nat) : Option RawBinaryRef :=
  match readU32le bytes with
  | none => none
  | some (lenU, rest) =>
    let len := asI32 lenU
    match rest with
    | [] => none
    | st :: rest =>
      let subtype := BinarySubtype.fromByte st
      if subtype = .binaryOld then
        match readU32le rest with
        | none => none
        | some (innerU, payload) =>
          if asI32 innerU = len - 4 ∧ (payload.length : Int) = len - 4 then
            some ⟨subtype, payload⟩
          else none
      else
        if (rest.length : Int) = len then some ⟨subtype, rest⟩ else none

/-- The owned regex (`Regex` with owned `CString` fields). -/
structure RegexOwned where
  pattern : List Char
  options : List Char
deriving DecidableEq, Repr

/-- The character sort used by the regex conversion: `chars().collect()`,
`sort_unstable()`, `collect::<String>()`. -/
def sortChars (cs : List Char) : List Char :=
  cs.mergeSort (fun a b => decide (a ≤ b))

/-- The `RegularExpression` arm of `From<RawBsonRef> for RawBson`: converting
a borrowed regex to an owned one canonicalizes the options by sorting its
characters. -/
def rawRegexRefToOwned (re : RawRegexRef) : RegexOwned :=
  { pattern := re.pattern, options := sortChars re.options }

/-! ## The generic value tree and the visitor input model (`de/serde.rs`) -/

/-- The payload of a `Bson::Double` as seen by the deserialization bridge.
The three special constructors model the literals `f64::INFINITY`,
`f64::NEG_INFINITY` and `f64::NAN` used by the `$numberDouble` arm; `given`
is an `f64` handed to `visit_f64` by the upstream driver (carried as its
IEEE-754 bit pattern); `parsed s` is the result of the external
`str::parse::<f64>` fallback on the text `s` (general floating-point text
parsing is an external collaborator; its failure path is not modelled
because no claim depends on it). -/
inductive F64 : Type
  | infinity
  | negInfinity
  | nan
  | given (bits : Nat)
  | parsed (s : String)
deriving DecidableEq, Repr

/-- The payload of a `Bson::Decimal128` (an opaque external collaborator):
either parsed from text (`$numberDecimal`) or taken from a 16-byte buffer
(`$numberDecimalBytes`). -/
inductive Dec128 : Type
  | fromString (s : String)
  | fromBytes (b : List Nat)
deriving DecidableEq, Repr

/-- The owned generic value tree (`Bson`), with documents as
insertion-ordered key/value lists. -/
inductive Bson : Type
  | double (v : F64)
  | string (s : String)
  | array (xs : List Bson)
  | document (d : List (String × Bson))
  | boolean (b : Bool)
  | null
  | regularExpression (pattern options : String)
  | javaScriptCode (code : String)
  | javaScriptCodeWithScope (code : String) (scope : List (String × Bson))
  | int32 (i : Int)
  | int64 (i : Int)
  | timestamp (time increment : Nat)
  | binary (subtype : BinarySubtype) (bytes : List Nat)
  | objectId (bytes : List Nat)
  | dateTime (millis : Int)
  | symbol (s : String)
  | decimal128 (d : Dec128)
  | undefined
  | maxKey
  | minKey
  | dbPointer (ns : String) (id : List Nat)

/-- `Document::insert`: insertion-ordered map insert — replaces the value in
place if the key is present, otherwise appends the pair at the end. -/
def docInsert : List (String × Bson) → String → Bson → List (String × Bson)
  | [], k, v => [(k, v)]
  | (k', v') :: rest, k, v =>
      if k' = k then (k, v) :: rest else (k', v') :: docInsert rest k v

/-- The serde data-model value fed to `BsonVisitor` by an upstream driver
(one constructor per `visit_*` entry point the visitor implements). -/
inductive DeValue : Type
  | boolV (b : Bool)
  | i8V (n : Int)
  | i16V (n : Int)
  | i32V (n : Int)
  | i64V (n : Int)
  | u8V (n : Nat)
  | u16V (n : Nat)
  | u32V (n : Nat)
  | u64V (n : Nat)
  | f64V (x : F64)
  | strV (s : String)
  | bytesV (b : List Nat)
  | noneV
  | someV (v : DeValue)
  | unitV
  | seqV (xs : List DeValue)
  | mapV (kvs : List (String × DeValue))

/-- The deserialization error taxonomy used by the bridge (serde's error
constructors, carrying the data the source formats into them). -/
inductive DeError : Type
  | endOfStream
  | invalidValue (unexp : String) (exp : String)
  | invalidType (unexp : String) (exp : String)
  | invalidLength (len : Nat) (exp : String)
  | unknownField (field : String) (expected : List String)
  | missingField (field : String)
  | custom (msg : String)
deriving DecidableEq, Repr

/-- A short description of a `DeValue`'s shape, used in invalid-type error
messages produced by the upstream driver (`serde::de::Unexpected`). -/
def DeValue.unexpectedDesc : DeValue → String
  | .boolV _ => "boolean"
  | .i8V _ | .i16V _ | .i32V _ | .i64V _ => "integer"
  | .u8V _ | .u16V _ | .u32V _ | .u64V _ => "integer"
  | .f64V _ => "floating point"
  | .strV _ => "string"
  | .bytesV _ => "byte array"
  | .noneV => "option"
  | .someV _ => "option"
  | .unitV => "unit"
  | .seqV _ => "sequence"
  | .mapV _ => "map"

/-- `next_value::<String>()`: the driver hands the value to `String`'s
deserializer, which accepts exactly a string. -/
def expectString : DeValue → Except DeError String
  | .strV s => .ok s
  | v => .error (.invalidType v.unexpectedDesc "a string")

/-- `next_value::<bool>()`. -/
def expectBool : DeValue → Except DeError Bool
  | .boolV b => .ok b
  | v => .error (.invalidType v.unexpectedDesc "a boolean")

/-- `next_value::<u8>()`: serde's standard integer impls accept any integer
shape whose value fits in `0..=255`. -/
def expectU8 : DeValue → Except DeError Nat
  | .u8V n => .ok n
  | .u16V n | .u32V n | .u64V n =>
      if n ≤ 255 then .ok n else .error (.invalidValue (toString n) "u8")
  | .i8V n | .i16V n | .i32V n | .i64V n =>
      if 0 ≤ n ∧ n ≤ 255 then .ok n.toNat else .error (.invalidValue (toString n) "u8")
  | v => .error (.invalidType v.unexpectedDesc "u8")

/-- `next_value::<u32>()` (used for the `$timestamp` body fields). -/
def expectU32 : DeValue → Except DeError Nat
  | .u8V n | .u16V n | .u32V n => .ok n
  | .u64V n =>
      if n ≤ 4294967295 then .ok n else .error (.invalidValue (toString n) "u32")
  | .i8V n | .i16V n | .i32V n | .i64V n =>
      if 0 ≤ n ∧ n ≤ 4294967295 then .ok n.toNat
      else .error (.invalidValue (toString n) "u32")
  | v => .error (.invalidType v.unexpectedDesc "u32")

/-! ### Decimal-integer and hex parsing (modelling `str::parse` and hex) -/

/-- The numeric value of a nonempty all-digit character list. -/
def digitsVal : List Char → Option Nat
  | [] => none
  | ds =>
    if ds.all (fun c => c.isDigit) then
      some (ds.foldl (fun acc c => acc * 10 + (c.toNat - 48)) 0)
    else none

/-- The integer grammar of Rust `str::parse::<iN>`: an optional sign followed
by one or more decimal digits, nothing else. -/
def parseDecimalInt : String → Option Int
  | s =>
    match s.toList with
    | '+' :: ds => (digitsVal ds).map Int.ofNat
    | '-' :: ds => (digitsVal ds).map (fun n => -(n : Int))
    | ds => (digitsVal ds).map Int.ofNat

/-- `str::parse::<i32>`: decimal parse plus the i32 range check. -/
def parseI32 (s : String) : Option Int := do
  let n ← parseDecimalInt s
  if -2147483648 ≤ n ∧ n ≤ 2147483647 then some n else none

/-- `str::parse::<i64>`: decimal parse plus the i64 range check. -/
def parseI64 (s : String) : Option Int := do
  let n ← parseDecimalInt s
  if -9223372036854775808 ≤ n ∧ n ≤ 9223372036854775807 then some n else none

/-- The value of one hex digit. -/
def hexDigitVal (c : Char) : Option Nat :=
  if c.isDigit then some (c.toNat - 48)
  else if 'a' ≤ c ∧ c ≤ 'f' then some (c.toNat - 87)
  else if 'A' ≤ c ∧ c ≤ 'F' then some (c.toNat - 55)
  else none

/-- Decode a list of hex characters (two per byte). -/
def hexPairs : List Char → Option (List Nat)
  | [] => some []
  | [_] => none
  | c1 :: c2 :: rest => do
    let h ← hexDigitVal c1
    let l ← hexDigitVal c2
    let tail ← hexPairs rest
    some ((16 * h + l) :: tail)

/-- Modelled from the spec: `ObjectId::parse_str` (in `oid.rs`, not under
`src/`); §3: an ObjectId is constructed from a 24-hex-character string. -/
def oidParseStr (s : String) : Option (List Nat) :=
  if s.length = 24 then hexPairs s.toList else none

/-! ### Base64 (external collaborator) -/

/-- The value of one standard-alphabet base64 character. -/
def base64CharVal (c : Char) : Option Nat :=
  if 'A' ≤ c ∧ c ≤ 'Z' then some (c.toNat - 65)
  else if 'a' ≤ c ∧ c ≤ 'z' then some (c.toNat - 71)
  else if '0' ≤ c ∧ c ≤ '9' then some (c.toNat + 4)
  else if c = '+' then some 62
  else if c = '/' then some 63
  else none

/-- Modelled from the spec: base64 text decoding is an external collaborator
(§1 out-of-scope list); modelled as the standard RFC 4648 alphabet with
mandatory padding and zero trailing bits. -/
def base64Groups : List Char → Except String (List Nat)
  | [] => .ok []
  | [c1, c2, '=', '='] =>
    match base64CharVal c1, base64CharVal c2 with
    | some v1, some v2 =>
      if v2 % 16 = 0 then .ok [v1 * 4 + v2 / 16] else .error "Invalid last symbol."
    | _, _ => .error "Invalid byte."
  | [c1, c2, c3, '='] =>
    match base64CharVal c1, base64CharVal c2, base64CharVal c3 with
    | some v1, some v2, some v3 =>
      if v3 % 4 = 0 then .ok [v1 * 4 + v2 / 16, v2 % 16 * 16 + v3 / 4]
      else .error "Invalid last symbol."
    | _, _, _ => .error "Invalid byte."
  | c1 :: c2 :: c3 :: c4 :: rest =>
    match base64CharVal c1, base64CharVal c2, base64CharVal c3, base64CharVal c4 with
    | some v1, some v2, some v3, some v4 =>
      match base64Groups rest with
      | .ok tail => .ok ([v1 * 4 + v2 / 16, v2 % 16 * 16 + v3 / 4, v3 % 4 * 64 + v4] ++ tail)
      | .error e => .error e
    | _, _, _, _ => .error "Invalid byte."
  | _ => .error "Encoded text cannot have a 6-bit remainder."

/-- `base64::decode` over a string input. -/
def base64Decode (s : String) : Except String (List Nat) := base64Groups s.toList

/-! ### Non-recursive special-key body parsers -/

/-- Look a key up in a map-shaped input and require a string value. -/
def lookupStr (kvs : List (String × DeValue)) (k : String) : Option String :=
  match kvs.lookup k with
  | some (.strV s) => some s
  | _ => none

/-- The `BytesOrHex` deserialization used by the `$oid` arm: accepts a
24-character hex string or a 12-byte array. -/
def parseOidValue : DeValue → Except DeError (List Nat)
  | .strV s =>
    match oidParseStr s with
    | some bytes => .ok bytes
    | none => .error (.invalidValue s "24-character, big-endian hex string")
  | .bytesV b =>
    if b.length = 12 then .ok b
    else .error (.custom "could not convert slice to an array of 12 bytes")
  | v => .error (.invalidType v.unexpectedDesc "hexstring or byte array")

/-- Modelled from the spec: the `$binary` body
(`extjson::models::BinaryBody`, not under `src/`): a map with `base64` and
`subType` string fields; the payload is base64-decoded and the subtype
parsed from a two-digit hex string. -/
def parseBinaryBody (v : DeValue) : Except DeError (BinarySubtype × List Nat) :=
  match v with
  | .mapV kvs =>
    match lookupStr kvs "base64", lookupStr kvs "subType" with
    | some b64, some sub =>
      match base64Decode b64 with
      | .error e => .error (.custom e)
      | .ok bytes =>
        match hexPairs sub.toList with
        | some [st] => .ok (BinarySubtype.fromByte st, bytes)
        | _ => .error (.custom "invalid subtype hex string")
    | _, _ => .error (.custom "invalid $binary body")
  | v => .error (.invalidType v.unexpectedDesc "a map")

/-- Modelled from the spec: `$uuid` parsing (extjson models plus the uuid
external collaborator, not under `src/`): a hyphenated 8-4-4-4-12 hex
string yielding 16 bytes. -/
def parseUuid (s : String) : Option (List Nat) :=
  let parts := s.toList.splitOn '-'
  if parts.map List.length = [8, 4, 4, 4, 12] then hexPairs parts.flatten else none

/-- Modelled from the spec: `extjson::models::TimestampBody` (not under
`src/`): a map with `t` and `i` unsigned 32-bit fields. -/
def parseTimestampBody (v : DeValue) : Except DeError (Nat × Nat) :=
  match v with
  | .mapV kvs =>
    match kvs.lookup "t", kvs.lookup "i" with
    | some tv, some iv =>
      match expectU32 tv with
      | .error e => .error e
      | .ok t =>
        match expectU32 iv with
        | .error e => .error e
        | .ok i => .ok (t, i)
    | _, _ => .error (.missingField "t")
  | v => .error (.invalidType v.unexpectedDesc "a map")

/-- Modelled from the spec: `extjson::models::RegexBody` plus
`Regex::from_strings` (not under `src/`): a map with `pattern` and
`options` string fields; embedded nul characters violate the C-string
invariant and are rejected. -/
def parseRegexBody (v : DeValue) : Except DeError (String × String) :=
  match v with
  | .mapV kvs =>
    match lookupStr kvs "pattern", lookupStr kvs "options" with
    | some p, some o =>
      if p.toList.contains (Char.ofNat 0) ∨ o.toList.contains (Char.ofNat 0) then
        .error (.custom "cstrings cannot contain interior null bytes")
      else .ok (p, o)
    | _, _ => .error (.custom "invalid $regularExpression body")
  | v => .error (.invalidType v.unexpectedDesc "a map")

/-- Modelled from the spec: `extjson::models::DbPointerBody` (not under
`src/`): a map with a `$ref` namespace string and an `$id` ObjectId in
extended-JSON form. -/
def parseDbPointerBody (v : DeValue) : Except DeError (String × List Nat) :=
  match v with
  | .mapV kvs =>
    match lookupStr kvs "$ref", kvs.lookup "$id" with
    | some ns, some (.mapV idkvs) =>
      match lookupStr idkvs "$oid" with
      | some hex =>
        match oidParseStr hex with
        | some bytes => .ok (ns, bytes)
        | none => .error (.custom "malformed ObjectId in $dbPointer")
      | none => .error (.custom "invalid $dbPointer body")
    | _, _ => .error (.custom "invalid $dbPointer body")
  | v => .error (.invalidType v.unexpectedDesc "a map")

/-- Modelled from the spec: `extjson::models::DateTimeBody` (not under
`src/`): the canonical form is a map carrying a `$numberLong`
millisecond-count string (relaxed ISO-8601 text is an external collaborator
and is not modelled). -/
def parseDateBody (v : DeValue) : Except DeError Int :=
  match v with
  | .mapV kvs =>
    match lookupStr kvs "$numberLong" with
    | some s =>
      match parseI64 s with
      | some n => .ok n
      | none => .error (.invalidValue s "64-bit signed integer as a string")
    | none => .error (.custom "invalid $date body")
  | v => .error (.invalidType v.unexpectedDesc "a map")

/-! ### Unsigned demotion (`convert_unsigned`) -/

/-- `BsonInteger`: the outcome of demoting an unsigned value. -/
inductive BsonInteger : Type
  | int32 (i : Int)
  | int64 (i : Int)
deriving DecidableEq, Repr

/-- `convert_unsigned`: demote a `u64` value to a signed BSON integer —
`i32::try_from` succeeds exactly on values up to `i32::MAX`, then
`i64::try_from` up to `i64::MAX`, anything larger is an error. -/
def convert_unsigned (value : Nat) : Except DeError BsonInteger :=
  if value ≤ 2147483647 then .ok (.int32 value)
  else if value ≤ 9223372036854775807 then .ok (.int64 value)
  else .error (.custom ("cannot represent " ++ toString value ++ " as a signed number"))

/-- `convert_unsigned_to_signed`: wrap the demoted integer as a `Bson`. -/
def convertUnsignedToSigned (value : Nat) : Except DeError Bson :=
  match convert_unsigned value with
  | .ok (.int32 i) => .ok (.int32 i)
  | .ok (.int64 i) => .ok (.int64 i)
  | .error e => .error e

/-! ### The special-key arms of `visit_map`

Each arm of the source's key dispatch is a small function of the
already-deserialized value(s) that arm consumes (the `Except` results of the
recursive deserializations are passed in; computing them eagerly does not
change any result since all functions here are pure). -/

/-- The `$oid` arm. -/
def armOid : Except DeError (List Nat) → Except DeError Bson
  | .ok bytes => .ok (.objectId bytes)
  | .error e => .error e

/-- The `$symbol` arm. -/
def armSymbol : Except DeError String → Except DeError Bson
  | .ok s => .ok (.symbol s)
  | .error e => .error e

/-- The `$numberInt` arm. -/
def armNumberInt : Except DeError String → Except DeError Bson
  | .error e => .error e
  | .ok s =>
    match parseI32 s with
    | some n => .ok (.int32 n)
    | none => .error (.invalidValue s "32-bit signed integer as a string")

/-- The `$numberLong` arm. -/
def armNumberLong : Except DeError String → Except DeError Bson
  | .error e => .error e
  | .ok s =>
    match parseI64 s with
    | some n => .ok (.int64 n)
    | none => .error (.invalidValue s "64-bit signed integer as a string")

/-- The `$numberDouble` arm: the three special literals are matched before
the general floating-point parse fallback. -/
def armNumberDouble : Except DeError String → Except DeError Bson
  | .error e => .error e
  | .ok s =>
    if s = "Infinity" then .ok (.double .infinity)
    else if s = "-Infinity" then .ok (.double .negInfinity)
    else if s = "NaN" then .ok (.double .nan)
    else .ok (.double (.parsed s))

/-- The `$binary` arm. -/
def armBinary : Except DeError (BinarySubtype × List Nat) → Except DeError Bson
  | .ok (st, bytes) => .ok (.binary st bytes)
  | .error e => .error e

/-- The `$uuid` arm. -/
def armUuid : Except DeError String → Except DeError Bson
  | .error e => .error e
  | .ok s =>
    match parseUuid s with
    | some bytes => .ok (.binary .uuid bytes)
    | none => .error (.custom "invalid UUID string")

/-- The `$code` arm: `code` is the deserialized `$code` value and `next` the
following key (if any) with its value deserialized as a `Document`.  Only a
following `$scope` key is accepted; any other key is an unknown-field
error naming it. -/
def armCode (code : Except DeError String)
    (next : Option (String × Except DeError (List (String × Bson)))) :
    Except DeError Bson :=
  match code with
  | .error e => .error e
  | .ok c =>
    match next with
    | none => .ok (.javaScriptCode c)
    | some (k2, scopeRes) =>
      if k2 = "$scope" then
        match scopeRes with
        | .error e => .error e
        | .ok scope => .ok (.javaScriptCodeWithScope c scope)
      else .error (.unknownField k2 ["$scope"])

/-- The `$scope` arm, symmetric to `armCode`: a following `$code` key is
required — absent, a missing-field error; any other key, an unknown-field
error naming it. -/
def armScope (scope : Except DeError (List (String × Bson)))
    (next : Option (String × Except DeError String)) : Except DeError Bson :=
  match scope with
  | .error e => .error e
  | .ok sc =>
    match next with
    | none => .error (.missingField "$code")
    | some (k2, codeRes) =>
      if k2 = "$code" then
        match codeRes with
        | .error e => .error e
        | .ok c => .ok (.javaScriptCodeWithScope c sc)
      else .error (.unknownField k2 ["$code"])

/-- The `$timestamp` arm. -/
def armTimestamp : Except DeError (Nat × Nat) → Except DeError Bson
  | .ok (t, i) => .ok (.timestamp t i)
  | .error e => .error e

/-- The `$regularExpression` arm. -/
def armRegex : Except DeError (String × String) → Except DeError Bson
  | .ok (p, o) => .ok (.regularExpression p o)
  | .error e => .error e

/-- The `$dbPointer` arm. -/
def armDbPointer : Except DeError (String × List Nat) → Except DeError Bson
  | .ok (ns, id) => .ok (.dbPointer ns id)
  | .error e => .error e

/-- The `$date` arm. -/
def armDate : Except DeError Int → Except DeError Bson
  | .ok millis => .ok (.dateTime millis)
  | .error e => .error e

/-- The `$maxKey` arm (the value must be exactly 1). -/
def armMaxKey : Except DeError Nat → Except DeError Bson
  | .error e => .error e
  | .ok i =>
    if i = 1 then .ok .maxKey else .error (.custom "expected $maxKey value to be 1")

/-- The `$minKey` arm (the value must be exactly 1). -/
def armMinKey : Except DeError Nat → Except DeError Bson
  | .error e => .error e
  | .ok i =>
    if i = 1 then .ok .minKey else .error (.custom "expected $minKey value to be 1")

/-- The `$undefined` arm (the value must be `true`). -/
def armUndefined : Except DeError Bool → Except DeError Bson
  | .error e => .error e
  | .ok b =>
    if b then .ok .undefined
    else .error (.custom "expected $undefined value to be true")

/-- The `$numberDecimal` arm (Decimal128 text parsing is an opaque external
collaborator; see `Dec128.fromString`). -/
def armNumberDecimal : Except DeError String → Except DeError Bson
  | .error e => .error e
  | .ok s => .ok (.decimal128 (.fromString s))

/-- The `$numberDecimalBytes` arm: a 16-byte buffer taken directly. -/
def armNumberDecimalBytes : DeValue → Except DeError Bson
  | .bytesV b =>
    if b.length = 16 then .ok (.decimal128 (.fromBytes b))
    else .error (.custom "expected 16 bytes")
  | v => .error (.invalidType v.unexpectedDesc "bytes")

/-- The set of extended-JSON special keys recognized by `visit_map` (§4.5):
exactly the keys matched by the arms of the source's `match`. -/
def isSpecialKey (k : String) : Bool :=
  k = "$oid" || k = "$symbol" || k = "$numberInt" || k = "$numberLong" ||
  k = "$numberDouble" || k = "$binary" || k = "$uuid" || k = "$code" ||
  k = "$scope" || k = "$timestamp" || k = "$regularExpression" ||
  k = "$dbPointer" || k = "$date" || k = "$maxKey" || k = "$minKey" ||
  k = "$undefined" || k = "$numberDecimal" || k = "$numberDecimalBytes"

/-- The full special-key dispatch of `visit_map`, one `if` per arm of the
source's `match`, in source order.  `nextScope`/`nextCode` carry the key
after the current one (when present) together with its value deserialized
as a `Document` / `String` (used by the `$code` / `$scope` arms).  This
function is consulted only for keys satisfying `isSpecialKey`, whose last
alternative is the `$numberDecimalBytes` arm. -/
def specialDispatch (k : String) (v : DeValue)
    (vDoc : Except DeError (List (String × Bson)))
    (nextScope : Option (String × Except DeError (List (String × Bson))))
    (nextCode : Option (String × Except DeError String)) : Except DeError Bson :=
  if k = "$oid" then armOid (parseOidValue v)
  else if k = "$symbol" then armSymbol (expectString v)
  else if k = "$numberInt" then armNumberInt (expectString v)
  else if k = "$numberLong" then armNumberLong (expectString v)
  else if k = "$numberDouble" then armNumberDouble (expectString v)
  else if k = "$binary" then armBinary (parseBinaryBody v)
  else if k = "$uuid" then armUuid (expectString v)
  else if k = "$code" then armCode (expectString v) nextScope
  else if k = "$scope" then armScope vDoc nextCode
  else if k = "$timestamp" then armTimestamp (parseTimestampBody v)
  else if k = "$regularExpression" then armRegex (parseRegexBody v)
  else if k = "$dbPointer" then armDbPointer (parseDbPointerBody v)
  else if k = "$date" then armDate (parseDateBody v)
  else if k = "$maxKey" then armMaxKey (expectU8 v)
  else if k = "$minKey" then armMinKey (expectU8 v)
  else if k = "$undefined" then armUndefined (expectBool v)
  else if k = "$numberDecimal" then armNumberDecimal (expectString v)
  else armNumberDecimalBytes v

/-! ### The visitor dispatch (`BsonVisitor`) -/

mutual

/-- `BsonVisitor::visit_map`: the map-visiting state machine.  Each key is
matched against the extended-JSON special-key table; a recognized key
consumes the value(s) its schema requires and returns the corresponding
variant immediately (terminating the document early), while an unrecognized
key has its value visited as a generic `Bson` and inserted into the output
document, after which the loop continues with the remaining pairs.  `doc`
is the accumulated output mapping (empty at the top-level call). -/
def visitMap (kvs : List (String × DeValue)) (doc : List (String × Bson)) :
    Except DeError Bson :=
  match kvs with
  | [] => .ok (.document doc)
  | (k, v) :: rest =>
    if isSpecialKey k then
      specialDispatch k v (expectDocument v)
        (match rest with
         | [] => none
         | (k2, v2) :: _ => some (k2, expectDocument v2))
        (match rest with
         | [] => none
         | (k2, v2) :: _ => some (k2, expectString v2))
    else
      match visitBson v with
      | .error e => .error e
      | .ok b => visitMap rest (docInsert doc k b)

/-- `BsonVisitor`'s scalar/sequence dispatch (`deserialize_any` driving the
visitor): one case per `visit_*` entry point of the source. -/
def visitBson (v : DeValue) : Except DeError Bson :=
  match v with
  | .boolV b => .ok (.boolean b)
  | .i8V n => .ok (.int32 n)
  | .i16V n => .ok (.int32 n)
  | .i32V n => .ok (.int32 n)
  | .i64V n => .ok (.int64 n)
  | .u8V n => convertUnsignedToSigned n
  | .u16V n => convertUnsignedToSigned n
  | .u32V n => convertUnsignedToSigned n
  | .u64V n => convertUnsignedToSigned n
  | .f64V x => .ok (.double x)
  | .strV s => .ok (.string s)
  | .bytesV b => .ok (.binary .generic b)
  | .noneV => .ok .null
  | .someV inner => visitBson inner
  | .unitV => .ok .null
  | .seqV xs =>
    match visitSeq xs with
    | .ok vs => .ok (.array vs)
    | .error e => .error e
  | .mapV kvs => visitMap kvs []

/-- `visit_seq`: visit every element of a sequence in order. -/
def visitSeq (xs : List DeValue) : Except DeError (List Bson) :=
  match xs with
  | [] => .ok []
  | x :: rest =>
    match visitBson x with
    | .error e => .error e
    | .ok b =>
      match visitSeq rest with
      | .error e => .error e
      | .ok bs => .ok (b :: bs)

/-- `Document::deserialize` (`deserialize_map(BsonVisitor)` followed by the
document check): accepts a map-shaped input whose visit produces a plain
document; any other visit result is an invalid-type error. -/
def expectDocument (v : DeValue) : Except DeError (List (String × Bson)) :=
  match v with
  | .mapV kvs =>
    match visitMap kvs [] with
    | .ok (.document d) => .ok d
    | .ok _ => .error (.invalidType "map" "expected document, found extended JSON data type")
    | .error e => .error e
  | v => .error (.invalidType v.unexpectedDesc "a map")

end

/-! ## Enum deserialization (`Deserializer::deserialize_enum`, `de/serde.rs`) -/

/-- Modelled from the spec: `Bson::as_unexpected` (in the bson value module,
not under `src/`) — the shape description used in invalid-type messages. -/
def Bson.asUnexpectedDesc : Bson → String
  | .double _ => "floating point"
  | .string _ => "string"
  | .array _ => "sequence"
  | .document _ => "map"
  | .boolean _ => "boolean"
  | .null => "unit"
  | .regularExpression _ _ => "regular expression"
  | .javaScriptCode _ => "JavaScript code"
  | .javaScriptCodeWithScope _ _ => "JavaScript code with scope"
  | .int32 _ => "32-bit integer"
  | .int64 _ => "64-bit integer"
  | .timestamp _ _ => "timestamp"
  | .binary _ _ => "byte array"
  | .objectId _ => "ObjectId"
  | .dateTime _ => "datetime"
  | .symbol _ => "symbol"
  | .decimal128 _ => "Decimal128"
  | .undefined => "undefined"
  | .maxKey => "maxKey"
  | .minKey => "minKey"
  | .dbPointer _ _ => "DbPointer"

/-- `Deserializer::deserialize_enum` over the deserializer's current value
(`None` models an already-consumed input).  A success models the
`visit_enum` invocation: the variant name handed to the visitor together
with the payload given to the variant deserializer (`none` for the
unit-like bare-string form). -/
def deserializeEnum (value : Option Bson) : Except DeError (String × Option Bson) :=
  match value with
  | none => .error .endOfStream
  | some (.document d) =>
    match d with
    | [] => .error (.invalidValue "empty document" "variant name")
    | (variant, payload) :: rest =>
      match rest with
      | (k, _) :: _ =>
          .error (.invalidValue "map"
            ("expected map with a single key, got extra key \"" ++ k ++ "\""))
      | [] => .ok (variant, some payload)
  | some (.string variant) => .ok (variant, none)
  | some v => .error (.invalidType v.asUnexpectedDesc "expected an enum")

/-! ## Raw array element access (`raw/array.rs`) -/

/-- `spec::ElementType` (modelled from the spec's §6 payload table; the
enumeration itself is not under `src/`). -/
inductive ElementType : Type
  | double
  | string
  | embeddedDocument
  | array
  | binary
  | undefined
  | objectId
  | boolean
  | dateTime
  | null
  | regularExpression
  | dbPointer
  | javaScriptCode
  | symbol
  | javaScriptCodeWithScope
  | int32
  | timestamp
  | int64
  | decimal128
  | maxKey
  | minKey
deriving DecidableEq, Repr

/-- `RawBsonRef::element_type`: a pure tag lookup. -/
def RawBsonRef.elementType : RawBsonRef → ElementType
  | .double _ => .double
  | .string _ => .string
  | .array _ => .array
  | .document _ => .embeddedDocument
  | .boolean _ => .boolean
  | .null => .null
  | .regularExpression _ => .regularExpression
  | .javaScriptCode _ => .javaScriptCode
  | .javaScriptCodeWithScope _ => .javaScriptCodeWithScope
  | .int32 _ => .int32
  | .int64 _ => .int64
  | .timestamp _ => .timestamp
  | .binary _ => .binary
  | .objectId _ => .objectId
  | .dateTime _ => .dateTime
  | .symbol _ => .symbol
  | .decimal128 _ => .decimal128
  | .undefined => .undefined
  | .maxKey => .maxKey
  | .minKey => .minKey
  | .dbPointer _ => .dbPointer

/-- `RawBsonRef::as_f64`. -/
def RawBsonRef.as_f64 : RawBsonRef → Option Nat
  | .double d => some d
  | _ => none

/-- `RawBsonRef::as_str`. -/
def RawBsonRef.as_str : RawBsonRef → Option (List Char)
  | .string s => some s
  | _ => none

/-- `RawBsonRef::as_bool`. -/
def RawBsonRef.as_bool : RawBsonRef → Option Bool
  | .boolean b => some b
  | _ => none

/-- `RawBsonRef::as_i32`. -/
def RawBsonRef.as_i32 : RawBsonRef → Option Int
  | .int32 i => some i
  | _ => none

/-- `RawBsonRef::as_i64`. -/
def RawBsonRef.as_i64 : RawBsonRef → Option Int
  | .int64 i => some i
  | _ => none

/-- `RawBsonRef::as_binary`. -/
def RawBsonRef.as_binary : RawBsonRef → Option RawBinaryRef
  | .binary b => some b
  | _ => none

/-- The kind of a value-access error (spec §7 taxonomy). -/
inductive VAErrorKind : Type
  | notPresent
  | invalidBson (msg : String)
  | unexpectedType (actual : ElementType) (expected : ElementType)
deriving DecidableEq, Repr

/-- Modelled from the spec: the crate error structure (`error` module, not
under `src/`): a value-access error kind plus an optional offending index,
attached separately via `with_index`. -/
structure VAError where
  kind : VAErrorKind
  index : Option Nat
deriving DecidableEq, Repr

/-- `Error::value_access_not_present` — constructed without an index. -/
def valueAccessNotPresent : VAError := ⟨.notPresent, none⟩

/-- `Error::value_access_invalid_bson` — constructed without an index. -/
def valueAccessInvalidBson (msg : String) : VAError := ⟨.invalidBson msg, none⟩

/-- `Error::value_access_unexpected_type` — constructed without an index. -/
def valueAccessUnexpectedType (actual expected : ElementType) : VAError :=
  ⟨.unexpectedType actual expected, none⟩

/-- `Error::with_index` — attach the offending index. -/
def VAError.withIndex (e : VAError) (i : Nat) : VAError := { e with index := some i }

/-- A raw array is characterized by the sequence of results its element
iterator yields (`RawArrayIter`, spec §4.2: a lazy sequence of
`Result<RawBsonRef>` that short-circuits on the first malformed element);
errors are carried as their debug-formatted text. -/
abbrev RawArraySeq : Type := List (Except String RawBsonRef)

/-- `RawArray::get`: `self.into_iter().nth(index).transpose()`. -/
def arrayGet (arr : RawArraySeq) (index : Nat) : Except String (Option RawBsonRef) :=
  match arr[index]? with
  | none => .ok none
  | some (.ok v) => .ok (some v)
  | some (.error e) => .error e

/-- `RawArray::get_with`: fetch the element at `index` and narrow it with
`f`, classifying failures into the three value-access causes. -/
def getWith (arr : RawArraySeq) (index : Nat) (expectedType : ElementType)
    (f : RawBsonRef → Option T) : Except VAError T :=
  match arrayGet arr index with
  | .error e => .error (valueAccessInvalidBson e)
  | .ok none => .error (valueAccessNotPresent.withIndex index)
  | .ok (some bson) =>
    match f bson with
    | some t => .ok t
    | none =>
        .error ((valueAccessUnexpectedType bson.elementType expectedType).withIndex index)

/-- `RawArray::get_f64`. -/
def RawArray.get_f64 (arr : RawArraySeq) (index : Nat) : Except VAError Nat :=
  getWith arr index .double RawBsonRef.as_f64

/-- `RawArray::get_str`. -/
def RawArray.get_str (arr : RawArraySeq) (index : Nat) : Except VAError (List Char) :=
  getWith arr index .string RawBsonRef.as_str

/-- `RawArray::get_bool`. -/
def RawArray.get_bool (arr : RawArraySeq) (index : Nat) : Except VAError Bool :=
  getWith arr index .boolean RawBsonRef.as_bool

/-- `RawArray::get_i32`. -/
def RawArray.get_i32 (arr : RawArraySeq) (index : Nat) : Except VAError Int :=
  getWith arr index .int32 RawBsonRef.as_i32

/-- `RawArray::get_i64`. -/
def RawArray.get_i64 (arr : RawArraySeq) (index : Nat) : Except VAError Int :=
  getWith arr index .int64 RawBsonRef.as_i64

/-! ## `Binary::from_base64` (`binary.rs`) -/

/-- The error type of `Binary` construction (`binary::Error`). -/
inductive BinaryError : Type
  | decodingError (message : String)
deriving DecidableEq, Repr

/-- The owned `Binary` value. -/
structure Binary where
  subtype : BinarySubtype
  bytes : List Nat
deriving DecidableEq, Repr

/-- `Binary::from_base64`: base64-decode the input (mapping a decode failure
to `DecodingError`) and default an absent subtype to `Generic`. -/
def Binary.from_base64 (input : String) (subtype : Option BinarySubtype) :
    Except BinaryError Binary :=
  match base64Decode input with
  | .error e => .error (.decodingError e)
  | .ok bytes =>
    match subtype with
    | some s => .ok { subtype := s, bytes := bytes }
    | none => .ok { subtype := .generic, bytes := bytes }

/-! ## Helper lemmas -/

theorem usizeAsI32_of_lt {n : Nat} (h : n < 2147483648) : usizeAsI32 n = n := by
  simp [usizeAsI32, Nat.mod_eq_of_lt (by omega : n < 4294967296)]
  omega

theorem i32le_ofNat {n : Nat} (h : n < 4294967296) : i32le (n : Int) = natLe4 n := by
  have h1 : (n : Int) % 4294967296 = n := by
    omega
  simp [i32le, h1]

theorem asI32_of_lt {n : Nat} (h : n < 2147483648) : asI32 n = n := by
  simp [asI32, h]

theorem readU32le_natLe4 (n : Nat) (hn : n < 4294967296) (rest : List Nat) :
    readU32le (natLe4 n ++ rest) = some (n, rest) := by
  simp [natLe4, readU32le]
  omega

/-! ## C2: unsigned demotion -/

/-- C2: every unsigned value received by `visit_u8`/`visit_u16`/`visit_u32`/
`visit_u64` is routed through `convert_unsigned`; a value up to `i32::MAX`
becomes `Int32`, a larger value up to `i64::MAX` becomes `Int64`, and a
larger value still is an error — never a silent truncation.  In particular
`4294967295` demotes to `Int64` and `2147483647` to `Int32`. -/
theorem c2_unsigned_demotion (v : Nat) (hv : v < 18446744073709551616) :
    (visitBson (.u8V v) = convertUnsignedToSigned v
      ∧ visitBson (.u16V v) = convertUnsignedToSigned v
      ∧ visitBson (.u32V v) = convertUnsignedToSigned v
      ∧ visitBson (.u64V v) = convertUnsignedToSigned v)
    ∧ (v ≤ 2147483647 → convertUnsignedToSigned v = .ok (.int32 v))
    ∧ (2147483647 < v → v ≤ 9223372036854775807 →
        convertUnsignedToSigned v = .ok (.int64 v))
    ∧ (9223372036854775807 < v →
        convertUnsignedToSigned v
          = .error (.custom ("cannot represent " ++ toString v ++ " as a signed number")))
    ∧ convertUnsignedToSigned 4294967295 = .ok (.int64 4294967295)
    ∧ convertUnsignedToSigned 2147483647 = .ok (.int32 2147483647) := by
  refine ⟨⟨rfl, rfl, rfl, rfl⟩, ?_, ?_, ?_, rfl, rfl⟩
  · intro h
    simp [convertUnsignedToSigned, convert_unsigned, h]
  · intro h1 h2
    simp [convertUnsignedToSigned, convert_unsigned, Nat.not_le.mpr h1, h2]
  · intro h
    simp [convertUnsignedToSigned, convert_unsigned,
      Nat.not_le.mpr (by omega : (2147483647 : Nat) < v), Nat.not_le.mpr h]

/-- Witness for C2 at concrete inputs. -/
theorem c2_unsigned_demotion_witness :
    convertUnsignedToSigned 3 = .ok (.int32 3)
  ∧ convertUnsignedToSigned 3000000000 = .ok (.int64 3000000000) :=
  ⟨(c2_unsigned_demotion 3 (by decide)).2.1 (by decide),
   (c2_unsigned_demotion 3000000000 (by decide)).2.2.1 (by decide) (by decide)⟩

/-! ## C8: `$numberDouble` special literals -/

/-- C8: a `$numberDouble` value that is exactly the string `"Infinity"`,
`"-Infinity"` or `"NaN"` produces the corresponding IEEE-754 special value
(`f64::INFINITY`, `f64::NEG_INFINITY`, `f64::NAN`); the literals are
matched before the general floating-point parse fallback is consulted. -/
theorem c8_number_double_literals (rest : List (String × DeValue)) :
    visitMap (("$numberDouble", .strV "Infinity") :: rest) [] = .ok (.double .infinity)
  ∧ visitMap (("$numberDouble", .strV "-Infinity") :: rest) [] = .ok (.double .negInfinity)
  ∧ visitMap (("$numberDouble", .strV "NaN") :: rest) [] = .ok (.double .nan) :=
  ⟨rfl, rfl, rfl⟩

/-! ## C10: `Binary::from_base64` -/

/-- C10: `from_base64` returns the base64 decoding of the input exactly when
it decodes, and a `DecodingError` otherwise; an absent subtype defaults to
`Generic` and a supplied subtype is preserved unchanged. -/
theorem c10_from_base64 (s : String) (st : BinarySubtype) :
    (∀ b, base64Decode s = .ok b →
        Binary.from_base64 s none = .ok ⟨.generic, b⟩
      ∧ Binary.from_base64 s (some st) = .ok ⟨st, b⟩)
  ∧ (∀ e, base64Decode s = .error e →
        Binary.from_base64 s none = .error (.decodingError e)
      ∧ Binary.from_base64 s (some st) = .error (.decodingError e)) := by
  constructor <;> intro x h <;> simp [Binary.from_base64, h]

/-- Witness for C10: a valid base64 input with and without a subtype, and an
invalid input. -/
theorem c10_from_base64_witness :
    Binary.from_base64 "aGVsbG8=" none = .ok ⟨.generic, [104, 101, 108, 108, 111]⟩
  ∧ Binary.from_base64 "aGVsbG8=" (some .md5) = .ok ⟨.md5, [104, 101, 108, 108, 111]⟩
  ∧ Binary.from_base64 "a" none
      = .error (.decodingError "Encoded text cannot have a 6-bit remainder.") :=
  ⟨((c10_from_base64 "aGVsbG8=" .md5).1 _ rfl).1,
   ((c10_from_base64 "aGVsbG8=" .md5).1 _ rfl).2,
   ((c10_from_base64 "a" .md5).2 _ rfl).1⟩

/-! ## C9: enum deserialization -/

/-- C9: deserializing an enum from a generic value: a single-key document
decodes as the tagged variant; an empty document is an invalid-value error
expecting a variant name; a document with more than one key is a distinct
error naming the extra key; a bare string decodes as a unit-like variant
name; any other value shape is an invalid-type error. -/
theorem c9_deserialize_enum (variant : String) (payload : Bson)
    (d : List (String × Bson)) (k2 : String) (p2 : Bson) (v : Bson) (s : String)
    (hnd : ∀ dd, v ≠ .document dd) (hns : ∀ ss, v ≠ .string ss) :
    deserializeEnum (some (.document [(variant, payload)])) = .ok (variant, some payload)
  ∧ deserializeEnum (some (.document [])) = .error (.invalidValue "empty document" "variant name")
  ∧ deserializeEnum (some (.document ((variant, payload) :: (k2, p2) :: d)))
      = .error (.invalidValue "map"
          ("expected map with a single key, got extra key \"" ++ k2 ++ "\""))
  ∧ deserializeEnum (some (.string s)) = .ok (s, none)
  ∧ deserializeEnum (some v) = .error (.invalidType v.asUnexpectedDesc "expected an enum") := by
  refine ⟨rfl, rfl, rfl, rfl, ?_⟩
  cases v with
  | document dd => exact absurd rfl (hnd dd)
  | string ss => exact absurd rfl (hns ss)
  | _ => rfl

/-- Witness for C9 at concrete inputs (the other-shape hypothesis is
discharged for an `Int32` value). -/
theorem c9_deserialize_enum_witness :
    deserializeEnum (some (.document [("A", .int32 1)])) = .ok ("A", some (.int32 1))
  ∧ deserializeEnum (some (.int32 7))
      = .error (.invalidType "32-bit integer" "expected an enum") :=
  ⟨(c9_deserialize_enum "A" (.int32 1) [] "b" .null (.int32 7) "x"
      (fun _ h => Bson.noConfusion h) (fun _ h => Bson.noConfusion h)).1,
   (c9_deserialize_enum "A" (.int32 1) [] "b" .null (.int32 7) "x"
      (fun _ h => Bson.noConfusion h) (fun _ h => Bson.noConfusion h)).2.2.2.2⟩

/-! ## C6: regex options canonicalization -/

/-- C6: converting a borrowed regex to an owned one sorts the option
characters: the produced options are a permutation of the input options in
ascending order, the pattern is unchanged, and an already-sorted options
string is left exactly as it was. -/
theorem c6_regex_conversion (re : RawRegexRef) :
    (rawRegexRefToOwned re).pattern = re.pattern
  ∧ (rawRegexRefToOwned re).options.Perm re.options
  ∧ List.Sorted (· ≤ ·) (rawRegexRefToOwned re).options
  ∧ (List.Sorted (· ≤ ·) re.options →
      rawRegexRefToOwned re = ⟨re.pattern, re.options⟩) := by
  refine ⟨rfl, ?_, ?_, ?_⟩
  · exact List.mergeSort_perm re.options _
  · have h := @List.sorted_mergeSort Char (fun a b => decide (a ≤ b))
      (fun a b c hab hbc => by
        simp only [decide_eq_true_eq] at hab hbc ⊢
        exact le_trans hab hbc)
      (fun a b => by simpa using le_total a b) re.options
    exact h.imp (fun h' => by simpa using h')
  · intro hs
    have h1 : sortChars re.options = re.options := by
      refine List.mergeSort_of_sorted ?_
      exact hs.imp (fun h' => by simpa using h')
    simp [rawRegexRefToOwned, h1]

/-- Witness for C6: unsorted options get sorted; sorted options are kept. -/
theorem c6_regex_conversion_witness :
    (rawRegexRefToOwned ⟨['a'], ['m', 'i', 's']⟩).options.Perm ['m', 'i', 's']
  ∧ List.Sorted (· ≤ ·) (rawRegexRefToOwned ⟨['a'], ['m', 'i', 's']⟩).options
  ∧ rawRegexRefToOwned ⟨['a'], ['i', 'm', 's']⟩ = ⟨['a'], ['i', 'm', 's']⟩ :=
  ⟨(c6_regex_conversion ⟨['a'], ['m', 'i', 's']⟩).2.1,
   (c6_regex_conversion ⟨['a'], ['m', 'i', 's']⟩).2.2.1,
   (c6_regex_conversion ⟨['a'], ['i', 'm', 's']⟩).2.2.2 (by decide)⟩

/-! ## C4: `$code` / `$scope` handling -/

/-- C4: a leading `$code` alone yields a bare `JavaScriptCode`; followed by
`$scope` it yields `JavaScriptCodeWithScope`; followed by any other key it
is an unknown-field error naming that key.  Symmetrically, a leading
`$scope` followed by `$code` yields `JavaScriptCodeWithScope`, followed by
any other key an unknown-field error, and alone a missing-field error for
`$code`. -/
theorem c4_code_scope (c : String) (kvs : List (String × DeValue))
    (d : List (String × Bson)) (rest : List (String × DeValue))
    (k2 : String) (v2 : DeValue)
    (hd : visitMap kvs [] = .ok (.document d))
    (hk2s : k2 ≠ "$scope") (hk2c : k2 ≠ "$code") :
    visitMap [("$code", .strV c)] [] = .ok (.javaScriptCode c)
  ∧ visitMap (("$code", .strV c) :: ("$scope", .mapV kvs) :: rest) []
      = .ok (.javaScriptCodeWithScope c d)
  ∧ visitMap (("$code", .strV c) :: (k2, v2) :: rest) []
      = .error (.unknownField k2 ["$scope"])
  ∧ visitMap (("$scope", .mapV kvs) :: ("$code", .strV c) :: rest) []
      = .ok (.javaScriptCodeWithScope c d)
  ∧ visitMap (("$scope", .mapV kvs) :: (k2, v2) :: rest) []
      = .error (.unknownField k2 ["$code"])
  ∧ visitMap [("$scope", .mapV kvs)] [] = .error (.missingField "$code") := by
  have hdoc : expectDocument (.mapV kvs) = .ok d := by
    have h0 : expectDocument (.mapV kvs)
        = match visitMap kvs [] with
          | .ok (.document dd) => .ok dd
          | .ok _ => .error (.invalidType "map" "expected document, found extended JSON data type")
          | .error e => .error e := rfl
    rw [h0, hd]
  refine ⟨rfl, ?_, ?_, ?_, ?_, ?_⟩
  · have h2 : visitMap (("$code", .strV c) :: ("$scope", .mapV kvs) :: rest) []
        = match expectDocument (.mapV kvs) with
          | .error e => .error e
          | .ok scope => .ok (.javaScriptCodeWithScope c scope) := rfl
    rw [h2, hdoc]
  · have h3 : visitMap (("$code", .strV c) :: (k2, v2) :: rest) []
        = if k2 = "$scope" then
            (match expectDocument v2 with
             | .error e => .error e
             | .ok scope => .ok (.javaScriptCodeWithScope c scope))
          else .error (.unknownField k2 ["$scope"]) := rfl
    rw [h3, if_neg hk2s]
  · have h4 : visitMap (("$scope", .mapV kvs) :: ("$code", .strV c) :: rest) []
        = match expectDocument (.mapV kvs) with
          | .error e => .error e
          | .ok scope => .ok (.javaScriptCodeWithScope c scope) := rfl
    rw [h4, hdoc]
  · have h5 : visitMap (("$scope", .mapV kvs) :: (k2, v2) :: rest) []
        = match expectDocument (.mapV kvs) with
          | .error e => .error e
          | .ok scope =>
            if k2 = "$code" then
              (match expectString v2 with
               | .error e => .error e
               | .ok code => .ok (.javaScriptCodeWithScope code scope))
            else .error (.unknownField k2 ["$code"]) := rfl
    rw [h5, hdoc]
    exact if_neg hk2c
  · have h6 : visitMap [("$scope", .mapV kvs)] []
        = match expectDocument (.mapV kvs) with
          | .error e => .error e
          | .ok _ => .error (.missingField "$code") := rfl
    rw [h6, hdoc]

/-- Witness for C4 at concrete inputs. -/
theorem c4_code_scope_witness :
    visitMap [("$code", .strV "foo"), ("$scope", .mapV [])] []
      = .ok (.javaScriptCodeWithScope "foo" [])
  ∧ visitMap [("$code", .strV "foo"), ("bar", .i32V 1)] []
      = .error (.unknownField "bar" ["$scope"])
  ∧ visitMap [("$scope", .mapV []), ("$code", .strV "foo")] []
      = .ok (.javaScriptCodeWithScope "foo" [])
  ∧ visitMap [("$scope", .mapV [])] [] = .error (.missingField "$code") :=
  ⟨(c4_code_scope "foo" [] [] [] "bar" (.i32V 1) rfl (by decide) (by decide)).2.1,
   (c4_code_scope "foo" [] [] [] "bar" (.i32V 1) rfl (by decide) (by decide)).2.2.1,
   (c4_code_scope "foo" [] [] [] "bar" (.i32V 1) rfl (by decide) (by decide)).2.2.2.1,
   (c4_code_scope "foo" [] [] [] "bar" (.i32V 1) rfl (by decide) (by decide)).2.2.2.2.2⟩

/-! ## C1: special keys are recognized at every position -/

/-- One-step unfolding of `visitMap` on a cons cell. -/
theorem visitMap_cons_eq (k : String) (v : DeValue) (rest : List (String × DeValue))
    (doc : List (String × Bson)) :
    visitMap ((k, v) :: rest) doc =
      (if isSpecialKey k then
        specialDispatch k v (expectDocument v)
          (match rest with
           | [] => none
           | (k2, v2) :: _ => some (k2, expectDocument v2))
          (match rest with
           | [] => none
           | (k2, v2) :: _ => some (k2, expectString v2))
      else
        match visitBson v with
        | .error e => .error e
        | .ok b => visitMap rest (docInsert doc k b)) := by
  rw [visitMap.eq_def]

/-- An unrecognized key falls through to the plain-document arm: its value
is visited generically and inserted, and the loop continues. -/
theorem visitMap_not_special (k : String) (v : DeValue) (rest : List (String × DeValue))
    (doc : List (String × Bson)) (hk : isSpecialKey k = false) :
    visitMap ((k, v) :: rest) doc
      = match visitBson v with
        | .error e => .error e
        | .ok b => visitMap rest (docInsert doc k b) := by
  rw [visitMap_cons_eq, hk]
  simp

/-- One-step unfolding of `visitSeq` on a cons cell. -/
theorem visitSeq_cons_eq (x : DeValue) (xs : List DeValue) :
    visitSeq (x :: xs)
      = match visitBson x with
        | .error e => .error e
        | .ok b =>
          match visitSeq xs with
          | .error e => .error e
          | .ok bs => .ok (b :: bs) := by
  rw [visitSeq.eq_def]

/-- Inserting a fresh key appends the pair at the end. -/
theorem docInsert_not_mem (l : List (String × Bson)) (k : String) (v : Bson)
    (hk : k ∉ l.map Prod.fst) : docInsert l k v = l ++ [(k, v)] := by
  induction l with
  | nil => rfl
  | cons p rest ih =>
    obtain ⟨k', v'⟩ := p
    simp only [List.map_cons, List.mem_cons] at hk
    push_neg at hk
    simp only [docInsert, if_neg (Ne.symm hk.1)]
    rw [ih hk.2]
    simp

/-- A map none of whose keys is a recognized special key visits to the
plain document of all its pairs (in order), provided every value visits
successfully. -/
theorem visitMap_plain (kvs : List (String × DeValue)) (doc : List (String × Bson))
    (bs : List Bson)
    (hspec : ∀ p ∈ kvs, isSpecialKey p.1 = false)
    (hnd : (doc.map Prod.fst ++ kvs.map Prod.fst).Nodup)
    (hvals : visitSeq (kvs.map Prod.snd) = .ok bs) :
    visitMap kvs doc = .ok (.document (doc ++ (kvs.map Prod.fst).zip bs)) := by
  induction kvs generalizing doc bs with
  | nil =>
    have hb : bs = [] := by
      have h0 : visitSeq (([] : List (String × DeValue)).map Prod.snd)
          = .ok ([] : List Bson) := rfl
      rw [h0] at hvals
      exact (Except.ok.inj hvals).symm
    subst hb
    simp [show visitMap [] doc = .ok (.document doc) from rfl]
  | cons p rest ih =>
    obtain ⟨k, v⟩ := p
    have hk : isSpecialKey k = false := hspec (k, v) (List.mem_cons_self _ _)
    rw [List.map_cons, visitSeq_cons_eq] at hvals
    rw [visitMap_not_special k v rest doc hk]
    cases hb : visitBson v with
    | error e => rw [hb] at hvals; simp at hvals
    | ok b =>
      rw [hb] at hvals
      cases hrest : visitSeq (rest.map Prod.snd) with
      | error e => rw [hrest] at hvals; simp at hvals
      | ok bs' =>
        rw [hrest] at hvals
        simp only [] at hvals
        obtain rfl : b :: bs' = bs := Except.ok.inj hvals
        have hkdoc : k ∉ doc.map Prod.fst := by
          intro hmem
          have hdisj := (List.nodup_append.mp hnd).2.2
          exact hdisj hmem (by simp)
        have hnd' : ((docInsert doc k b).map Prod.fst ++ rest.map Prod.fst).Nodup := by
          rw [docInsert_not_mem doc k b hkdoc]
          simpa [List.append_assoc] using hnd
        have hih := ih (docInsert doc k b) bs' (fun p hp => hspec p (List.mem_cons_of_mem _ hp))
          hnd' hrest
        change visitMap rest (docInsert doc k b) = _
        rw [hih, docInsert_not_mem doc k b hkdoc]
        simp

/-- C1 (corrected, counterexample): special-key interpretation is applied at
every key, not only the first: a map whose first key `"a"` is not special
but whose second key is `"$symbol"` (resp. `"$oid"`) parses as a `Symbol`
(resp. an `ObjectId`), not as a plain two-entry document. -/
theorem c1_counterexample :
    visitMap [("a", .boolV true), ("$symbol", .strV "x")] [] = .ok (.symbol "x")
  ∧ visitMap [("a", .boolV true), ("$oid", .strV "507f1f77bcf86cd799439011")] []
      = .ok (.objectId [80, 127, 31, 119, 188, 248, 108, 215, 153, 67, 144, 17])
  ∧ (∀ d, visitMap [("a", .boolV true), ("$oid", .strV "507f1f77bcf86cd799439011")] []
      ≠ .ok (.document d))
  ∧ (∀ d, visitMap [("a", .boolV true), ("$symbol", .strV "x")] []
      ≠ .ok (.document d)) := by
  have h1 : visitMap [("a", .boolV true), ("$symbol", .strV "x")] []
      = .ok (.symbol "x") := rfl
  have h2 : visitMap [("a", .boolV true), ("$oid", .strV "507f1f77bcf86cd799439011")] []
      = .ok (.objectId [80, 127, 31, 119, 188, 248, 108, 215, 153, 67, 144, 17]) := rfl
  refine ⟨h1, h2, ?_, ?_⟩
  · intro d h
    rw [h2] at h
    exact Bson.noConfusion (Except.ok.inj h)
  · intro d h
    rw [h1] at h
    exact Bson.noConfusion (Except.ok.inj h)

/-- C1 (amended): if NO key of the map (not merely the first) is a
recognized special key, the map parses as a plain document containing every
key/value pair as ordinary entries, in input order. -/
theorem c1_plain_document (kvs : List (String × DeValue)) (bs : List Bson)
    (hspec : ∀ p ∈ kvs, isSpecialKey p.1 = false)
    (hnd : (kvs.map Prod.fst).Nodup)
    (hvals : visitSeq (kvs.map Prod.snd) = .ok bs) :
    visitMap kvs [] = .ok (.document ((kvs.map Prod.fst).zip bs)) := by
  have := visitMap_plain kvs [] bs hspec (by simpa using hnd) hvals
  simpa using this

/-- Witness for the amended C1 at a concrete two-entry plain map. -/
theorem c1_plain_document_witness :
    visitMap [("a", .boolV true), ("b", .i32V 2)] []
      = .ok (.document [("a", .boolean true), ("b", .int32 2)]) :=
  c1_plain_document [("a", .boolV true), ("b", .i32V 2)]
    [.boolean true, .int32 2] (by decide) (by decide) rfl

/-! ## C7: value-access error classification on raw arrays -/

/-- C7 (corrected, counterexample): when the underlying bytes at an index
are malformed, the value-access error produced by a typed getter carries
the invalid-bson cause but NO index (the index is attached only on the
not-present and wrong-type paths). -/
theorem c7_counterexample :
    RawArray.get_f64 [Except.error "invalid length"] 0
      = .error ⟨.invalidBson "invalid length", none⟩
  ∧ (∀ kind i, RawArray.get_f64 [Except.error "invalid length"] 0
      ≠ .error ⟨kind, some i⟩) := by
  refine ⟨rfl, ?_⟩
  intro kind i h
  have h2 : (⟨.invalidBson "invalid length", none⟩ : VAError) = ⟨kind, some i⟩ :=
    Except.error.inj h
  simpa using congrArg VAError.index h2

/-- C7 (amended): a typed-getter failure distinguishes exactly three causes
— value absent, underlying bytes malformed, or wrong type (the latter
carrying both actual and expected element type) — and the absent and
wrong-type errors carry the offending index, while the malformed-bytes
error carries the underlying error text but no index; every typed getter
routes through `get_with`. -/
theorem c7_value_access (T : Type) (arr : RawArraySeq) (i : Nat)
    (expected : ElementType) (f : RawBsonRef → Option T) :
    (∀ e, arr[i]? = some (.error e) →
        getWith arr i expected f = .error ⟨.invalidBson e, none⟩)
  ∧ (arr[i]? = none →
        getWith arr i expected f = .error ⟨.notPresent, some i⟩)
  ∧ (∀ v, arr[i]? = some (.ok v) → f v = none →
        getWith arr i expected f
          = .error ⟨.unexpectedType v.elementType expected, some i⟩)
  ∧ (∀ v t, arr[i]? = some (.ok v) → f v = some t →
        getWith arr i expected f = .ok t)
  ∧ RawArray.get_f64 arr i = getWith arr i .double RawBsonRef.as_f64
  ∧ RawArray.get_str arr i = getWith arr i .string RawBsonRef.as_str
  ∧ RawArray.get_bool arr i = getWith arr i .boolean RawBsonRef.as_bool
  ∧ RawArray.get_i32 arr i = getWith arr i .int32 RawBsonRef.as_i32 := by
  refine ⟨?_, ?_, ?_, ?_, rfl, rfl, rfl, rfl⟩
  · intro e he
    simp [getWith, arrayGet, he, valueAccessInvalidBson]
  · intro he
    simp [getWith, arrayGet, he, valueAccessNotPresent, VAError.withIndex]
  · intro v hv hf
    simp [getWith, arrayGet, hv, hf, valueAccessUnexpectedType, VAError.withIndex]
  · intro v t hv hf
    simp [getWith, arrayGet, hv, hf]

/-- Witness for the amended C7: all three failure causes and a success at
concrete arrays. -/
theorem c7_value_access_witness :
    getWith [Except.error "bad"] 0 .double RawBsonRef.as_f64
      = .error ⟨.invalidBson "bad", none⟩
  ∧ getWith [Except.ok (RawBsonRef.double 3)] 1 .double RawBsonRef.as_f64
      = .error ⟨.notPresent, some 1⟩
  ∧ getWith [Except.ok (RawBsonRef.boolean true)] 0 .double RawBsonRef.as_f64
      = .error ⟨.unexpectedType .boolean .double, some 0⟩
  ∧ getWith [Except.ok (RawBsonRef.double 3)] 0 .double RawBsonRef.as_f64 = .ok 3 :=
  ⟨(c7_value_access Nat [Except.error "bad"] 0 .double RawBsonRef.as_f64).1 "bad" rfl,
   (c7_value_access Nat [Except.ok (RawBsonRef.double 3)] 1 .double
      RawBsonRef.as_f64).2.1 rfl,
   (c7_value_access Nat [Except.ok (RawBsonRef.boolean true)] 0 .double
      RawBsonRef.as_f64).2.2.1 (RawBsonRef.boolean true) rfl rfl,
   (c7_value_access Nat [Except.ok (RawBsonRef.double 3)] 0 .double
      RawBsonRef.as_f64).2.2.2.1 (RawBsonRef.double 3) 3 rfl rfl⟩

/-! ## C3: BinaryOld wire layout and round trip -/

/-- C3: encoding a `BinaryOld` binary writes declared length `len(b) + 4`,
the subtype byte 0x02, an internal 4-byte little-endian `len(b)` field,
then the payload; decoding that byte sequence reproduces the payload
exactly; any other subtype writes declared length `len(b)` with no internal
length field (the element is exactly 5 + len(b) bytes). -/
theorem c3_binary_old (b : List Nat) (st : BinarySubtype)
    (hlen : b.length + 4 ≤ 2147483647) (hne : st ≠ .binaryOld) :
    RawBsonRef.appendTo (.binary ⟨.binaryOld, b⟩) []
        = natLe4 (b.length + 4) ++ [2] ++ natLe4 b.length ++ b
  ∧ decodeBinary (RawBsonRef.appendTo (.binary ⟨.binaryOld, b⟩) [])
        = some ⟨.binaryOld, b⟩
  ∧ RawBsonRef.appendTo (.binary ⟨st, b⟩) [] = natLe4 b.length ++ [st.toByte] ++ b
  ∧ (RawBsonRef.appendTo (.binary ⟨st, b⟩) []).length = 5 + b.length := by
  have husize : usizeAsI32 b.length = b.length := usizeAsI32_of_lt (by omega)
  have hlen1 : RawBinaryRef.len ⟨.binaryOld, b⟩ = ((b.length + 4 : Nat) : Int) := by
    simp [RawBinaryRef.len, husize]
  have hsub : ((b.length + 4 : Nat) : Int) - 4 = ((b.length : Nat) : Int) := by
    push_cast
    ring
  have henc : RawBsonRef.appendTo (.binary ⟨.binaryOld, b⟩) []
      = natLe4 (b.length + 4) ++ [2] ++ natLe4 b.length ++ b := by
    simp only [RawBsonRef.appendTo, hlen1, hsub, BinarySubtype.toByte,
      i32le_ofNat (show b.length + 4 < 4294967296 by omega),
      i32le_ofNat (show b.length < 4294967296 by omega), if_pos rfl]
    simp
  have hlen2 : RawBinaryRef.len ⟨st, b⟩ = ((b.length : Nat) : Int) := by
    unfold RawBinaryRef.len
    cases st <;> first
      | exact absurd rfl hne
      | simp [husize]
  have henc2 : RawBsonRef.appendTo (.binary ⟨st, b⟩) []
      = natLe4 b.length ++ [st.toByte] ++ b := by
    simp only [RawBsonRef.appendTo, hlen2,
      i32le_ofNat (show b.length < 4294967296 by omega), if_neg hne]
    simp
  refine ⟨henc, ?_, henc2, ?_⟩
  · rw [henc]
    have hshape : natLe4 (b.length + 4) ++ [2] ++ natLe4 b.length ++ b
        = natLe4 (b.length + 4) ++ (2 :: (natLe4 b.length ++ b)) := by simp
    rw [hshape]
    simp only [decodeBinary,
      readU32le_natLe4 (b.length + 4) (by omega : b.length + 4 < 4294967296),
      readU32le_natLe4 b.length (by omega : b.length < 4294967296)]
    have hfb : BinarySubtype.fromByte 2 = .binaryOld := rfl
    rw [hfb]
    simp only [if_pos rfl, asI32_of_lt (show b.length + 4 < 2147483648 by omega),
      asI32_of_lt (show b.length < 2147483648 by omega)]
    have hcond : ((b.length : Int) = ((b.length + 4 : Nat) : Int) - 4
        ∧ ((b.length : Nat) : Int) = ((b.length + 4 : Nat) : Int) - 4) := by
      constructor <;> (push_cast; ring)
    rw [if_pos hcond]
    simp
  · rw [henc2]
    simp [natLe4]
    omega

/-- Witness for C3 at a concrete payload and subtype. -/
theorem c3_binary_old_witness :
    RawBsonRef.appendTo (.binary ⟨.binaryOld, [7, 9]⟩) []
      = [6, 0, 0, 0, 2, 2, 0, 0, 0, 7, 9]
  ∧ decodeBinary [6, 0, 0, 0, 2, 2, 0, 0, 0, 7, 9] = some ⟨.binaryOld, [7, 9]⟩
  ∧ RawBsonRef.appendTo (.binary ⟨.generic, [7, 9]⟩) [] = [2, 0, 0, 0, 0, 7, 9] := by
  have h := c3_binary_old [7, 9] .generic (by decide) (by decide)
  refine ⟨?_, ?_, ?_⟩
  · rw [h.1]
    rfl
  · have h2 := h.2.1
    rw [h.1] at h2
    exact h2
  · rw [h.2.2.1]
    rfl

/-! ## C5: code-with-scope length recomputation -/

/-- C5: the declared length of an encoded code-with-scope value is
recomputed from its components — 4 (own length field) + 4 (code length
field) + code bytes + 1 (nul) + scope document bytes — and `append_to`
writes exactly that little-endian int32 followed by the length-prefixed
code string and the scope bytes.  (The borrowed value stores no length
field that could be trusted instead.) -/
theorem c5_code_with_scope (code : List Char) (scope : List Nat)
    (h : 4 + 4 + rustStrLen code + 1 + scope.length ≤ 2147483647) :
    RawBsonRef.appendTo (.javaScriptCodeWithScope ⟨code, scope⟩) []
      = natLe4 (4 + 4 + rustStrLen code + 1 + scope.length)
        ++ (natLe4 (rustStrLen code + 1) ++ utf8Bytes code ++ [0]) ++ scope
  ∧ RawJavaScriptCodeWithScopeRef.len ⟨code, scope⟩
      = ((4 + 4 + rustStrLen code + 1 + scope.length : Nat) : Int) := by
  have hcode : usizeAsI32 (rustStrLen code) = rustStrLen code :=
    usizeAsI32_of_lt (by omega)
  have hscope : usizeAsI32 scope.length = scope.length :=
    usizeAsI32_of_lt (by omega)
  have hone : usizeAsI32 (rustStrLen code + 1) = ((rustStrLen code + 1 : Nat) : Int) :=
    usizeAsI32_of_lt (by omega)
  have hlen : RawJavaScriptCodeWithScopeRef.len ⟨code, scope⟩
      = ((4 + 4 + rustStrLen code + 1 + scope.length : Nat) : Int) := by
    simp [RawJavaScriptCodeWithScopeRef.len, hcode, hscope]
  refine ⟨?_, hlen⟩
  simp only [RawBsonRef.appendTo, write_string, hlen, hone,
    i32le_ofNat (show 4 + 4 + rustStrLen code + 1 + scope.length < 4294967296 by omega),
    i32le_ofNat (show rustStrLen code + 1 < 4294967296 by omega)]
  simp

/-- Witness for C5 at a concrete one-character code and a minimal scope. -/
theorem c5_code_with_scope_witness :
    RawBsonRef.appendTo (.javaScriptCodeWithScope ⟨['a'], [5, 0, 0, 0, 0]⟩) []
      = [15, 0, 0, 0, 2, 0, 0, 0, 97, 0, 5, 0, 0, 0, 0]
  ∧ RawJavaScriptCodeWithScopeRef.len ⟨['a'], [5, 0, 0, 0, 0]⟩ = 15 := by
  have h := c5_code_with_scope ['a'] [5, 0, 0, 0, 0] (by decide)
  constructor
  · rw [h.1]
    rfl
  · rw [h.2]
    rfl

end BsonRust
